import Mathlib

/-!
Verification of the pycocoedit COCO-dataset editor (`pycocoedit/cocodata.py`)
against its natural-language specification.

The Python module manipulates four collections of schema-light records
(images, annotations, categories, licenses) held by a `CocoEditor`:
filters are registered per collection, `apply_filter` prunes the
collections, `correct` restores referential integrity, `reset` reloads
from a source dataset.

Records are embedded as association lists from field names to values
(`Dict`); filter decision functions become Lean predicates over `Dict`.
The module `pycocoedit/filter.py` is not part of the given sources; the
few pieces of it that concrete scenarios need (the kind of a filter, the
append-by-kind `Filters.add`, and the image-file-name filter variant)
are modelled from the specification and marked as such below.
-/

/-- Field values stored in a record: integers or strings suffice for
every field the claims inspect (ids, names, sizes). -/
inductive Value where
  | vInt : Int → Value
  | vStr : String → Value
deriving DecidableEq, Repr

/-- A record is a schema-light mapping from field names to values,
embedded as an association list (Python `dict`). -/
abbrev Dict := List (String × Value)

/-- Lookup of a field in a record (Python `d[k]` / `d.get(k)`),
returning `none` when the field is absent. -/
def Dict.find (d : Dict) (k : String) : Option Value :=
  (List.find? (fun p => p.1 == k) d).map (fun p => p.2)

/-- Field-presence test (Python `k in d` on a dict). -/
def Dict.hasKey (d : Dict) (k : String) : Bool :=
  List.any d (fun p => p.1 == k)

/-- String constants used by the embedded code, kept as named
definitions. -/
def kId : String := "id"

def kFileName : String := "file_name"

def kWidth : String := "width"

def kHeight : String := "height"

def kName : String := "name"

def kSupercategory : String := "supercategory"

def kImageId : String := "image_id"

def kCategoryId : String := "category_id"

def kBbox : String := "bbox"

def kArea : String := "area"

def kSegmentation : String := "segmentation"

def sUnknown : String := "Unknown"

/-- A per-collection filter set: the ordered sequence of inclusion
decision functions and the ordered sequence of exclusion decision
functions (`Filters.include_filters` / `Filters.exclude_filters` in the
Python code). A decision function maps one record to a Bool. -/
structure Filters where
  include_filters : List (Dict → Bool)
  exclude_filters : List (Dict → Bool)

/-- Filter kind tag (inclusion / exclusion), from the Filter
Abstraction of the specification. -/
inductive FilterType where
  | inclusion : FilterType
  | exclusion : FilterType
deriving DecidableEq, Repr

/-- Modelled from the spec: `Filters.add` of the absent
`pycocoedit/filter.py` appends the filter to the sequence matching its
kind (spec §4.4); it sees only the filter set, so it can touch nothing
else of the editor. -/
def Filters.add (fs : Filters) (ft : FilterType) (p : Dict → Bool) : Filters :=
  match ft with
  | .inclusion => { fs with include_filters := fs.include_filters ++ [p] }
  | .exclusion => { fs with exclude_filters := fs.exclude_filters ++ [p] }

/-- Modelled from the spec: the image-file-name filter variant of the
absent `pycocoedit/filter.py` matches a record whose `file_name` field
is a member of the configured list of names (spec §4.3). -/
def imageNameMatch (names : List String) (d : Dict) : Bool :=
  match Dict.find d kFileName with
  | some v => List.any names (fun n => v == Value.vStr n)
  | none => false

/-- Inclusion stage over one collection (`cocodata.py` lines 192-199):
a record is kept when at least one inclusion decision function returns
true for it (the inner `break` is the short-circuit of `List.any`). -/
def includeStage (fs : List (Dict → Bool)) (ds : List Dict) : List Dict :=
  List.filter (fun d => List.any fs (fun f => f d)) ds

/-- Exclusion stage over one collection (`cocodata.py` lines 200-207):
a record is kept when at least one exclusion decision function returns
false for it, so it is dropped exactly when every exclusion decision
function returns true. -/
def excludeStage (fs : List (Dict → Bool)) (ds : List Dict) : List Dict :=
  List.filter (fun d => List.any fs (fun f => !(f d))) ds

/-- Processing of one collection by `apply_filter` (`cocodata.py` lines
188-207). `ds` is the entry of the `targets` list captured before the
loop body runs; the inclusion stage commits its result via `update`,
but the exclusion stage iterates `targets[i]` — still the captured
`ds`, NOT the committed inclusion output — and its own `update`
overwrites the inclusion result. The embedding reproduces this
faithfully. -/
def applyCollection (fs : Filters) (ds : List Dict) : List Dict :=
  let afterInclude :=
    if fs.include_filters.isEmpty then ds
    else includeStage fs.include_filters ds
  if fs.exclude_filters.isEmpty then afterInclude
  else excludeStage fs.exclude_filters ds

/-- The editor state: the four record collections, the opaque `info`
record, one filter set per collection, and the `filter_applied` flag
(`CocoEditor.__init__` fields). -/
structure CocoEditor where
  images : List Dict
  annotations : List Dict
  categories : List Dict
  licenses : List Dict
  info : Dict
  image_filters : Filters
  category_filters : Filters
  annotation_filters : Filters
  licenses_filters : Filters
  filter_applied : Bool

/-- Embedding of `CocoEditor.apply_filter` (`cocodata.py` lines
161-210): each of the four collections is processed independently with
its own filter set (the four iterations of the loop touch disjoint
state), and `filter_applied` is set unconditionally at the end. -/
def CocoEditor.apply_filter (e : CocoEditor) : CocoEditor :=
  { e with
    images := applyCollection e.image_filters e.images
    categories := applyCollection e.category_filters e.categories
    annotations := applyCollection e.annotation_filters e.annotations
    licenses := applyCollection e.licenses_filters e.licenses
    filter_applied := true }

/-- Embedding of `CocoEditor.add_file_name_filter` (`cocodata.py` lines
89-112): registers an image-name inclusion filter and/or an image-name
exclusion filter on the image filter set, in that order; nothing else
of the editor is touched. The `target_type` dispatch of `__add_filter`
always hits the `image` branch here. -/
def CocoEditor.add_file_name_filter (e : CocoEditor)
    (include_files exclude_files : Option (List String)) : CocoEditor :=
  let e1 :=
    match include_files with
    | some ns => { e with image_filters := e.image_filters.add .inclusion (imageNameMatch ns) }
    | none => e
  match exclude_files with
  | some ns => { e1 with image_filters := e1.image_filters.add .exclusion (imageNameMatch ns) }
  | none => e1

/-- Error payload of the `KeyError` raised by `validate_keys`
(`cocodata.py` lines 21-23): the names of the missing fields, the
collection name, and the record's `id` field (or the string
`Unknown` when the record has no `id`). The specification calls this
error `MissingFieldError`. -/
structure KeyErrorInfo where
  missing : List String
  target : String
  recordId : Value
deriving DecidableEq, Repr

/-- Missing required fields of one record, in required-key order
(the list comprehension on `cocodata.py` line 19). -/
def missingKeys (required_keys : List String) (d : Dict) : List String :=
  List.filter (fun k => !(Dict.hasKey d k)) required_keys

/-- Embedding of `validate_keys` (`cocodata.py` lines 17-23): walk the
records in order and fail at the first record that lacks at least one
required field, reporting its missing fields and its `id` (or
`Unknown`); succeed when every record carries all required fields. -/
def validate_keys (data : List Dict) (required_keys : List String)
    (target : String) : Except KeyErrorInfo Unit :=
  match data with
  | [] => Except.ok ()
  | d :: rest =>
    let missing_keys := missingKeys required_keys d
    if missing_keys.isEmpty then validate_keys rest required_keys target
    else Except.error
      { missing := missing_keys
        target := target
        recordId := (Dict.find d kId).getD (Value.vStr sUnknown) }

/-- Collection-name constants passed as `target` to `validate_keys`. -/
def tgtImage : String := "image"

def tgtCategory : String := "category"

def tgtAnn : String := "annotation"

/-- Required fields of an image record (`validate_images`). -/
def imageKeys : List String := [kId, kFileName, kWidth, kHeight]

/-- Required fields of a category record (`validate_categories`). -/
def categoryKeys : List String := [kId, kName, kSupercategory]

/-- Required fields of a record of the annotations collection
(`validate_annotations`). -/
def annKeys : List String := [kId, kImageId, kCategoryId, kBbox, kArea, kSegmentation]

/-- Embedding of `validate_images` (`cocodata.py` lines 26-28). -/
def validate_images (images : List Dict) : Except KeyErrorInfo Unit :=
  validate_keys images imageKeys tgtImage

/-- Embedding of `validate_categories` (`cocodata.py` lines 31-33). -/
def validate_categories (categories : List Dict) : Except KeyErrorInfo Unit :=
  validate_keys categories categoryKeys tgtCategory

/-- Embedding of `validate_annotations` (`cocodata.py` lines 36-38). -/
def validate_annotations (anns : List Dict) : Except KeyErrorInfo Unit :=
  validate_keys anns annKeys tgtAnn

/-- A source dataset document: the three required collections plus the
optional `licenses` and `info` members (read with `.get` defaults in
the Python constructor). Deep-copying of the caller's document has no
observable counterpart in a pure embedding. -/
structure Dataset where
  images : List Dict
  annotations : List Dict
  categories : List Dict
  licensesOpt : Option (List Dict)
  infoOpt : Option Dict

/-- A fresh, empty filter set. -/
def emptyFilters : Filters := { include_filters := [], exclude_filters := [] }

/-- Embedding of the `CocoEditor` constructor (`cocodata.py` lines
46-68): take the collections from the document (`licenses` defaulting
to `[]`, `info` to the empty record), validate images, categories and
the annotations collection in that order, start with four empty filter
sets and `filter_applied = false`. A validation failure surfaces the
`KeyError`. -/
def fromDataset (ds : Dataset) : Except KeyErrorInfo CocoEditor :=
  match validate_images ds.images with
  | Except.error err => Except.error err
  | Except.ok _ =>
    match validate_categories ds.categories with
    | Except.error err => Except.error err
    | Except.ok _ =>
      match validate_annotations ds.annotations with
      | Except.error err => Except.error err
      | Except.ok _ =>
        Except.ok
          { images := ds.images
            annotations := ds.annotations
            categories := ds.categories
            licenses := ds.licensesOpt.getD []
            info := ds.infoOpt.getD []
            image_filters := emptyFilters
            category_filters := emptyFilters
            annotation_filters := emptyFilters
            licenses_filters := emptyFilters
            filter_applied := false }

/-- Embedding of `CocoEditor.reset` (`cocodata.py` lines 212-241): the
body is line for line the constructor's body (the code comments on the
duplication), so the previous editor state `_e` is discarded
entirely. -/
def CocoEditor.reset (_e : CocoEditor) (ds : Dataset) : Except KeyErrorInfo CocoEditor :=
  match validate_images ds.images with
  | Except.error err => Except.error err
  | Except.ok _ =>
    match validate_categories ds.categories with
    | Except.error err => Except.error err
    | Except.ok _ =>
      match validate_annotations ds.annotations with
      | Except.error err => Except.error err
      | Except.ok _ =>
        Except.ok
          { images := ds.images
            annotations := ds.annotations
            categories := ds.categories
            licenses := ds.licensesOpt.getD []
            info := ds.infoOpt.getD []
            image_filters := emptyFilters
            category_filters := emptyFilters
            annotation_filters := emptyFilters
            licenses_filters := emptyFilters
            filter_applied := false }

/-- The aggregate returned by `correct` (`cocodata.py` lines 305-311):
the full corrected dataset. -/
structure Aggregate where
  info : Dict
  licenses : List Dict
  images : List Dict
  categories : List Dict
  annotations : List Dict
deriving DecidableEq, Repr

/-- Embedding of `CocoEditor.correct` (`cocodata.py` lines 243-311).
Runs `apply_filter` first when `filter_applied` is false; then drops
records of the annotations collection whose `category_id` is not among
the categories' ids, then those whose `image_id` is not among the
images' ids; then, when `correct_image` (Python default true), keeps
only images referenced by a surviving record of the annotations
collection; then, when `correct_category` (Python default false), the
analogous pruning of categories. Returns the new editor state together
with the returned aggregate. -/
def CocoEditor.correct (e0 : CocoEditor)
    (correct_image correct_category : Bool) : CocoEditor × Aggregate :=
  let e := if e0.filter_applied then e0 else e0.apply_filter
  let cat_ids := e.categories.map (fun cat => Dict.find cat kId)
  let anns1 := e.annotations.filter (fun a => decide (Dict.find a kCategoryId ∈ cat_ids))
  let img_ids := e.images.map (fun img => Dict.find img kId)
  let anns2 := anns1.filter (fun a => decide (Dict.find a kImageId ∈ img_ids))
  let newImages :=
    if correct_image then
      let ref_ids := anns2.map (fun a => Dict.find a kImageId)
      e.images.filter (fun img => decide (Dict.find img kId ∈ ref_ids))
    else e.images
  let newCategories :=
    if correct_category then
      let ref_ids := anns2.map (fun a => Dict.find a kCategoryId)
      e.categories.filter (fun cat => decide (Dict.find cat kId ∈ ref_ids))
    else e.categories
  let e2 := { e with annotations := anns2, images := newImages, categories := newCategories }
  (e2,
    { info := e2.info
      licenses := e2.licenses
      images := e2.images
      categories := e2.categories
      annotations := e2.annotations })

/-- Step 1 of the correction pass, stated standalone: keep the records
of the annotations collection whose `category_id` occurs among the
given categories' ids. -/
def annsWithKnownCategory (cats anns : List Dict) : List Dict :=
  anns.filter (fun a =>
    decide (Dict.find a kCategoryId ∈ cats.map (fun cat => Dict.find cat kId)))

/-- Step 2 of the correction pass, stated standalone: keep the records
of the annotations collection whose `image_id` occurs among the given
images' ids. -/
def annsWithKnownImage (imgs anns : List Dict) : List Dict :=
  anns.filter (fun a =>
    decide (Dict.find a kImageId ∈ imgs.map (fun img => Dict.find img kId)))

/-- Step 3 of the correction pass, stated standalone: keep the images
whose id is referenced by some surviving record of the annotations
collection. -/
def imagesWithSomeAnn (anns imgs : List Dict) : List Dict :=
  imgs.filter (fun img =>
    decide (Dict.find img kId ∈ anns.map (fun a => Dict.find a kImageId)))

/-- Step 4 of the correction pass, stated standalone: keep the
categories whose id is referenced by some surviving record of the
annotations collection. -/
def categoriesWithSomeAnn (anns cats : List Dict) : List Dict :=
  cats.filter (fun cat =>
    decide (Dict.find cat kId ∈ anns.map (fun a => Dict.find a kCategoryId)))

/-- A decision function that may raise: `none` models an exception
escaping the Python `apply` call. The total model above is this one
restricted to never-raising decision functions. -/
abbrev OptPred := Dict → Option Bool

/-- A per-collection filter set of possibly-raising decision
functions. -/
structure FiltersE where
  include_filters : List OptPred
  exclude_filters : List OptPred

/-- One record's inclusion decision with exceptions (`cocodata.py`
lines 195-198): try the inclusion decision functions in order, stop at
the first `true`; a raise propagates. -/
def anyTrueE (fs : List OptPred) (d : Dict) : Option Bool :=
  match fs with
  | [] => some false
  | f :: rest =>
    match f d with
    | none => none
    | some true => some true
    | some false => anyTrueE rest d

/-- One record's exclusion-stage keep decision with exceptions
(`cocodata.py` lines 203-206): try the exclusion decision functions in
order, keep at the first `false`; a raise propagates. -/
def anyFalseE (fs : List OptPred) (d : Dict) : Option Bool :=
  match fs with
  | [] => some false
  | f :: rest =>
    match f d with
    | none => none
    | some false => some true
    | some true => anyFalseE rest d

/-- Filtering of a record list by a possibly-raising keep decision:
the buffered `new_dicts` list is lost when a raise propagates, so the
result is `none` and nothing is committed for that stage. -/
def filterListE (g : Dict → Option Bool) (ds : List Dict) : Option (List Dict) :=
  match ds with
  | [] => some []
  | d :: rest =>
    match g d with
    | none => none
    | some true => (filterListE g rest).map (fun l => d :: l)
    | some false => filterListE g rest

/-- Processing of one collection by `apply_filter` with exceptions:
mirrors `applyCollection` (including the stale `targets[i]` read by
the exclusion stage); on a raise, `Except.error` carries the value the
collection holds at that moment — the pre-call value when the
inclusion stage raised, the committed inclusion output when the
exclusion stage raised after a non-empty inclusion stage. -/
def applyCollectionE (fs : FiltersE) (ds : List Dict) : Except (List Dict) (List Dict) :=
  if fs.include_filters.isEmpty then
    if fs.exclude_filters.isEmpty then Except.ok ds
    else
      match filterListE (anyFalseE fs.exclude_filters) ds with
      | none => Except.error ds
      | some ds2 => Except.ok ds2
  else
    match filterListE (anyTrueE fs.include_filters) ds with
    | none => Except.error ds
    | some ds1 =>
      if fs.exclude_filters.isEmpty then Except.ok ds1
      else
        match filterListE (anyFalseE fs.exclude_filters) ds with
        | none => Except.error ds1
        | some ds2 => Except.ok ds2

/-- Editor state for the exception-aware model: identical to
`CocoEditor` but with possibly-raising decision functions. -/
structure CocoEditorE where
  images : List Dict
  annotations : List Dict
  categories : List Dict
  licenses : List Dict
  info : Dict
  image_filters : FiltersE
  category_filters : FiltersE
  annotation_filters : FiltersE
  licenses_filters : FiltersE
  filter_applied : Bool

/-- Embedding of `CocoEditor.apply_filter` with exceptions: the four
collections are processed in loop order (images, categories,
annotations, licenses); each collection's result is committed by
`update` before the next collection is processed, so a raise leaves
every earlier collection already replaced, the raising collection at
its stage-committed value, the later collections untouched, and
`filter_applied` not yet set (it is set only on line 209, after the
loop). -/
def CocoEditorE.apply_filterE (e : CocoEditorE) : Except CocoEditorE CocoEditorE :=
  match applyCollectionE e.image_filters e.images with
  | Except.error imgs1 => Except.error { e with images := imgs1 }
  | Except.ok imgs1 =>
    match applyCollectionE e.category_filters e.categories with
    | Except.error cats1 => Except.error { e with images := imgs1, categories := cats1 }
    | Except.ok cats1 =>
      match applyCollectionE e.annotation_filters e.annotations with
      | Except.error anns1 =>
        Except.error { e with images := imgs1, categories := cats1, annotations := anns1 }
      | Except.ok anns1 =>
        match applyCollectionE e.licenses_filters e.licenses with
        | Except.error lics1 =>
          Except.error
            { e with images := imgs1, categories := cats1, annotations := anns1, licenses := lics1 }
        | Except.ok lics1 =>
          Except.ok
            { e with images := imgs1, categories := cats1, annotations := anns1, licenses := lics1,
                     filter_applied := true }

/-- File names and category names of the concrete 3-image dataset used
by the repository's tests. -/
def fn0 : String := "image0.jpg"

def fn1 : String := "image1.jpg"

def fn2 : String := "image2.jpg"

def cn0 : String := "category0"

def cn1 : String := "category1"

def cn2 : String := "category2"

def sDesc : String := "description"

def sCoco : String := "COCO 2020 Dataset"

def sLicense : String := "License"

/-- Image records of the concrete dataset (ids 1, 2, 3). -/
def img0rec : Dict :=
  [(kId, Value.vInt 1), (kFileName, Value.vStr fn0),
   (kWidth, Value.vInt 100), (kHeight, Value.vInt 100)]

def img1rec : Dict :=
  [(kId, Value.vInt 2), (kFileName, Value.vStr fn1),
   (kWidth, Value.vInt 200), (kHeight, Value.vInt 200)]

def img2rec : Dict :=
  [(kId, Value.vInt 3), (kFileName, Value.vStr fn2),
   (kWidth, Value.vInt 300), (kHeight, Value.vInt 300)]

/-- Category records of the concrete dataset (ids 1, 2, 3). -/
def cat0rec : Dict :=
  [(kId, Value.vInt 1), (kName, Value.vStr cn0), (kSupercategory, Value.vStr cn0)]

def cat1rec : Dict :=
  [(kId, Value.vInt 2), (kName, Value.vStr cn1), (kSupercategory, Value.vStr cn1)]

def cat2rec : Dict :=
  [(kId, Value.vInt 3), (kName, Value.vStr cn2), (kSupercategory, Value.vStr cn2)]

/-- Records of the annotations collection of the concrete dataset
(ids 1, 2, 3; the record with id `n` references image `n` and
category `n`). -/
def annArec : Dict :=
  [(kId, Value.vInt 1), (kImageId, Value.vInt 1), (kCategoryId, Value.vInt 1),
   (kBbox, Value.vInt 0), (kArea, Value.vInt 100), (kSegmentation, Value.vInt 0)]

def annBrec : Dict :=
  [(kId, Value.vInt 2), (kImageId, Value.vInt 2), (kCategoryId, Value.vInt 2),
   (kBbox, Value.vInt 0), (kArea, Value.vInt 200), (kSegmentation, Value.vInt 0)]

def annCrec : Dict :=
  [(kId, Value.vInt 3), (kImageId, Value.vInt 3), (kCategoryId, Value.vInt 3),
   (kBbox, Value.vInt 0), (kArea, Value.vInt 300), (kSegmentation, Value.vInt 0)]

/-- License record and `info` record of the concrete dataset. -/
def lic1rec : Dict := [(kId, Value.vInt 1), (kName, Value.vStr sLicense)]

def infoRec : Dict := [(sDesc, Value.vStr sCoco)]

/-- The concrete 3-image source dataset. -/
def ds3 : Dataset :=
  { images := [img0rec, img1rec, img2rec]
    annotations := [annArec, annBrec, annCrec]
    categories := [cat0rec, cat1rec, cat2rec]
    licensesOpt := some [lic1rec]
    infoOpt := some infoRec }

/-- The editor freshly constructed from `ds3`. -/
def editor3 : CocoEditor :=
  { images := [img0rec, img1rec, img2rec]
    annotations := [annArec, annBrec, annCrec]
    categories := [cat0rec, cat1rec, cat2rec]
    licenses := [lic1rec]
    info := infoRec
    image_filters := emptyFilters
    category_filters := emptyFilters
    annotation_filters := emptyFilters
    licenses_filters := emptyFilters
    filter_applied := false }

/-- The editor with a single-call registration of both image-name
filters of the concrete scenario: an inclusion filter for
`image0.jpg`/`image1.jpg` and an exclusion filter for `image1.jpg`. -/
def eC1 : CocoEditor := editor3.add_file_name_filter (some [fn0, fn1]) (some [fn1])

/-- C1: evaluating the embedded `apply_filter` once on the 3-image
dataset with both the inclusion filter for image0/image1 and the
exclusion filter for image1 registered yields images
`[image0, image2]`, not the `[image0]` the claim states: the exclusion
stage iterates the pre-inclusion `targets` list and its `update`
overwrites the inclusion output (which on its own would be
`[image0, image1]`). -/
theorem c1_single_call_discards_inclusion :
    (eC1.apply_filter).images = [img0rec, img2rec] ∧
    includeStage eC1.image_filters.include_filters eC1.images = [img0rec, img1rec] ∧
    ([img0rec, img2rec] : List Dict) ≠ [img0rec] := by
  refine ⟨rfl, rfl, by decide⟩

/-- C2: for a collection whose registered filters are only exclusion
filters (empty inclusion sequence, non-empty exclusion sequence),
`apply_filter` replaces the collection with the records for which at
least one exclusion decision function returns false; a record of the
collection is dropped exactly when every exclusion decision function
returns true for it. The final conjunct ties the per-collection
function to each of the four collections of the editor. -/
theorem c2_exclusion_only_drops_iff_all_match (fs : Filters) (ds : List Dict)
    (_hinc : fs.include_filters = []) (hexc : fs.exclude_filters ≠ []) :
    applyCollection fs ds =
      ds.filter (fun d => fs.exclude_filters.any (fun f => !(f d))) ∧
    (∀ d, d ∈ ds →
      ((d ∈ applyCollection fs ds ↔ ¬ (∀ f ∈ fs.exclude_filters, f d = true)) ∧
       ((∃ f ∈ fs.exclude_filters, f d = false) → d ∈ applyCollection fs ds))) ∧
    (∀ e : CocoEditor,
      (e.apply_filter).images = applyCollection e.image_filters e.images ∧
      (e.apply_filter).categories = applyCollection e.category_filters e.categories ∧
      (e.apply_filter).annotations = applyCollection e.annotation_filters e.annotations ∧
      (e.apply_filter).licenses = applyCollection e.licenses_filters e.licenses) := by
  have hmain : applyCollection fs ds =
      ds.filter (fun d => fs.exclude_filters.any (fun f => !(f d))) := by
    simp [applyCollection, excludeStage, List.isEmpty_iff, hexc]
  refine ⟨hmain, ?_, fun e => ⟨rfl, rfl, rfl, rfl⟩⟩
  intro d hd
  constructor
  · rw [hmain, List.mem_filter]
    simp only [hd, true_and, List.any_eq_true, Bool.not_eq_true']
    constructor
    · rintro ⟨f, hf, hfd⟩ hall
      exact absurd (hall f hf) (by simp [hfd])
    · intro h
      rcases (show ∃ f ∈ fs.exclude_filters, f d = false by simpa using h) with ⟨f, hf, hfd⟩
      exact ⟨f, hf, by simpa using hfd⟩
  · rintro ⟨f, hf, hfd⟩
    rw [hmain, List.mem_filter]
    exact ⟨hd, List.any_eq_true.mpr ⟨f, hf, by simp [hfd]⟩⟩

/-- C8: for a collection whose registered filters are only inclusion
filters (empty exclusion sequence), `apply_filter` replaces the
collection with exactly the records for which at least one inclusion
decision function returns true; with an empty inclusion sequence the
collection is left unchanged. The final conjunct ties the
per-collection function to each of the four collections of the
editor. -/
theorem c8_inclusion_only_keeps_any_match (fs : Filters) (ds : List Dict)
    (hexc : fs.exclude_filters = []) :
    applyCollection fs ds =
      (if fs.include_filters.isEmpty then ds
       else ds.filter (fun d => fs.include_filters.any (fun f => f d))) ∧
    (∀ d, d ∈ ds → fs.include_filters ≠ [] →
      (d ∈ applyCollection fs ds ↔ ∃ f ∈ fs.include_filters, f d = true)) ∧
    (fs.include_filters = [] → applyCollection fs ds = ds) ∧
    (∀ e : CocoEditor,
      (e.apply_filter).images = applyCollection e.image_filters e.images ∧
      (e.apply_filter).categories = applyCollection e.category_filters e.categories ∧
      (e.apply_filter).annotations = applyCollection e.annotation_filters e.annotations ∧
      (e.apply_filter).licenses = applyCollection e.licenses_filters e.licenses) := by
  have hmain : applyCollection fs ds =
      if fs.include_filters.isEmpty then ds
      else ds.filter (fun d => fs.include_filters.any (fun f => f d)) := by
    by_cases h : fs.include_filters.isEmpty
    · simp [applyCollection, hexc, h]
    · simp [applyCollection, hexc, h, includeStage]
  refine ⟨hmain, ?_, ?_, fun e => ⟨rfl, rfl, rfl, rfl⟩⟩
  · intro d hd hne
    rw [hmain]
    have : fs.include_filters.isEmpty = false := by
      simpa [List.isEmpty_iff] using hne
    simp [this, List.mem_filter, hd, List.any_eq_true]
  · intro h
    rw [hmain]
    simp [h]

/-- Helper: `correct` first replaces the editor by its filtered state
exactly when `filter_applied` is false (`cocodata.py` lines 263-264). -/
lemma correct_run_filter (e : CocoEditor) (ci cc : Bool) :
    e.correct ci cc = (if e.filter_applied then e else e.apply_filter).correct ci cc := by
  obtain ⟨imgs, anns, cats, lics, inf, f1, f2, f3, f4, fl⟩ := e
  cases fl
  · rfl
  · rfl

/-- Helper: the editor taken as input by the correction steps always
has `filter_applied` set. -/
lemma pre_filter_flag (e : CocoEditor) :
    (if e.filter_applied then e else e.apply_filter).filter_applied = true := by
  obtain ⟨imgs, anns, cats, lics, inf, f1, f2, f3, f4, fl⟩ := e
  cases fl
  · rfl
  · rfl

/-- Helper: unfolding of the correction steps when filtering has
already been applied, in terms of the standalone step functions. -/
lemma correct_steps (e : CocoEditor) (ci cc : Bool) (h : e.filter_applied = true) :
    e.correct ci cc =
      (let A := annsWithKnownImage e.images (annsWithKnownCategory e.categories e.annotations)
       let I := if ci then imagesWithSomeAnn A e.images else e.images
       let C := if cc then categoriesWithSomeAnn A e.categories else e.categories
       ({ e with annotations := A, images := I, categories := C },
        { info := e.info, licenses := e.licenses, images := I,
          categories := C, annotations := A })) := by
  obtain ⟨imgs, anns, cats, lics, inf, f1, f2, f3, f4, fl⟩ := e
  have hfl : fl = true := h
  subst hfl
  rfl

/-- Helper: membership in the first correction step. -/
lemma mem_annsWithKnownCategory {cats anns : List Dict} {a : Dict} :
    a ∈ annsWithKnownCategory cats anns ↔
      a ∈ anns ∧ Dict.find a kCategoryId ∈ cats.map (fun cat => Dict.find cat kId) := by
  simp [annsWithKnownCategory, List.mem_filter]

/-- Helper: membership in the second correction step. -/
lemma mem_annsWithKnownImage {imgs anns : List Dict} {a : Dict} :
    a ∈ annsWithKnownImage imgs anns ↔
      a ∈ anns ∧ Dict.find a kImageId ∈ imgs.map (fun img => Dict.find img kId) := by
  simp [annsWithKnownImage, List.mem_filter]

/-- Helper: membership in the third correction step. -/
lemma mem_imagesWithSomeAnn {anns imgs : List Dict} {img : Dict} :
    img ∈ imagesWithSomeAnn anns imgs ↔
      img ∈ imgs ∧ Dict.find img kId ∈ anns.map (fun a => Dict.find a kImageId) := by
  simp [imagesWithSomeAnn, List.mem_filter]

/-- Helper: membership in the fourth correction step. -/
lemma mem_categoriesWithSomeAnn {anns cats : List Dict} {cat : Dict} :
    cat ∈ categoriesWithSomeAnn anns cats ↔
      cat ∈ cats ∧ Dict.find cat kId ∈ anns.map (fun a => Dict.find a kCategoryId) := by
  simp [categoriesWithSomeAnn, List.mem_filter]

/-- C4: with filtering already applied, `correct` first drops records
of the annotations collection with unknown `category_id`, then those
with unknown `image_id`; only then, under `correct_image`, it keeps
exactly the images referenced by a surviving record, and under
`correct_category` exactly the categories so referenced; with
`correct_category` false (its Python default) the categories are left
untouched, so categories with zero surviving references remain, and
with `correct_category` true a category survives exactly when some
surviving record references its id. The returned aggregate carries the
corrected collections. -/
theorem c4_correct_fixed_order (e : CocoEditor) (ci cc : Bool)
    (h : e.filter_applied = true) :
    ((e.correct ci cc).1.annotations =
      annsWithKnownImage e.images (annsWithKnownCategory e.categories e.annotations)) ∧
    ((e.correct ci cc).1.images =
      if ci then imagesWithSomeAnn (e.correct ci cc).1.annotations e.images else e.images) ∧
    ((e.correct ci cc).1.categories =
      if cc then categoriesWithSomeAnn (e.correct ci cc).1.annotations e.categories
      else e.categories) ∧
    ((e.correct ci cc).2 =
      { info := e.info, licenses := e.licenses, images := (e.correct ci cc).1.images,
        categories := (e.correct ci cc).1.categories,
        annotations := (e.correct ci cc).1.annotations }) ∧
    (cc = false → (e.correct ci cc).1.categories = e.categories) ∧
    (cc = true → ∀ cat ∈ e.categories,
      (cat ∈ (e.correct ci cc).1.categories ↔
        Dict.find cat kId ∈
          (e.correct ci cc).1.annotations.map (fun a => Dict.find a kCategoryId))) := by
  rw [correct_steps e ci cc h]
  refine ⟨rfl, rfl, rfl, rfl, ?_, ?_⟩
  · intro hcc
    simp [hcc]
  · intro hcc cat hcat
    simp only [hcc, if_true]
    rw [mem_categoriesWithSomeAnn]
    simp [hcat]

/-- The concrete editor with filtering already applied (no filters
registered, so the collections are those of `ds3`). -/
def editor3f : CocoEditor := { editor3 with filter_applied := true }

/-- Witness for `c4_correct_fixed_order` at the concrete editor with
default flag values. -/
theorem c4_correct_fixed_order_witness :
    editor3f.filter_applied = true ∧
    (editor3f.correct true false).1.annotations =
      annsWithKnownImage editor3f.images
        (annsWithKnownCategory editor3f.categories editor3f.annotations) :=
  ⟨rfl, (c4_correct_fixed_order editor3f true false rfl).1⟩

/-- Helper: an image that is in the pre-step image list and is
referenced from the surviving records is in the step-3 output whether
or not step 3 runs. -/
lemma mem_if_images {A imgs : List Dict} {img : Dict} (b : Bool) (h1 : img ∈ imgs)
    (h2 : Dict.find img kId ∈ A.map (fun a => Dict.find a kImageId)) :
    img ∈ (if b then imagesWithSomeAnn A imgs else imgs) := by
  cases b
  · simpa using h1
  · simpa using mem_imagesWithSomeAnn.mpr ⟨h1, h2⟩

/-- Helper: a category that is in the pre-step category list and is
referenced from the surviving records is in the step-4 output whether
or not step 4 runs. -/
lemma mem_if_categories {A cats : List Dict} {cat : Dict} (b : Bool) (h1 : cat ∈ cats)
    (h2 : Dict.find cat kId ∈ A.map (fun a => Dict.find a kCategoryId)) :
    cat ∈ (if b then categoriesWithSomeAnn A cats else cats) := by
  cases b
  · simpa using h1
  · simpa using mem_categoriesWithSomeAnn.mpr ⟨h1, h2⟩

/-- Helper: referential integrity of the corrected state, for an
editor whose `filter_applied` flag is set. -/
lemma c5_aux (m : CocoEditor) (ci cc : Bool) (hm : m.filter_applied = true) :
    ∀ a ∈ (m.correct ci cc).1.annotations,
      (∃ img ∈ (m.correct ci cc).1.images, Dict.find img kId = Dict.find a kImageId) ∧
      (∃ cat ∈ (m.correct ci cc).1.categories, Dict.find cat kId = Dict.find a kCategoryId) := by
  rw [correct_steps m ci cc hm]
  intro a ha
  simp only at ha ⊢
  obtain ⟨haC, himg⟩ := mem_annsWithKnownImage.mp ha
  obtain ⟨-, hcat⟩ := mem_annsWithKnownCategory.mp haC
  constructor
  · obtain ⟨img, himgmem, heq⟩ := List.mem_map.mp himg
    exact ⟨img, mem_if_images ci himgmem (List.mem_map.mpr ⟨a, ha, heq.symm⟩), heq⟩
  · obtain ⟨cat, hcatmem, heq⟩ := List.mem_map.mp hcat
    exact ⟨cat, mem_if_categories cc hcatmem (List.mem_map.mpr ⟨a, ha, heq.symm⟩), heq⟩

/-- C5: after `correct`, whatever the two flags, every surviving
record of the annotations collection references the id of some held
image and the id of some held category, both in the editor state and
in the returned aggregate. -/
theorem c5_correct_restores_integrity (e : CocoEditor) (ci cc : Bool) :
    (∀ a ∈ (e.correct ci cc).1.annotations,
      (∃ img ∈ (e.correct ci cc).1.images, Dict.find img kId = Dict.find a kImageId) ∧
      (∃ cat ∈ (e.correct ci cc).1.categories, Dict.find cat kId = Dict.find a kCategoryId)) ∧
    ((e.correct ci cc).2.annotations = (e.correct ci cc).1.annotations ∧
     (e.correct ci cc).2.images = (e.correct ci cc).1.images ∧
     (e.correct ci cc).2.categories = (e.correct ci cc).1.categories) := by
  refine ⟨?_, rfl, rfl, rfl⟩
  rw [correct_run_filter e ci cc]
  exact c5_aux _ ci cc (pre_filter_flag e)

/-- Helper: step 3 is idempotent for a fixed surviving-record list. -/
lemma imagesSome_idem {A imgs : List Dict} :
    imagesWithSomeAnn A (imagesWithSomeAnn A imgs) = imagesWithSomeAnn A imgs :=
  List.filter_eq_self.mpr (fun _ h => (List.mem_filter.mp h).2)

/-- Helper: step 4 is idempotent for a fixed surviving-record list. -/
lemma categoriesSome_idem {A cats : List Dict} :
    categoriesWithSomeAnn A (categoriesWithSomeAnn A cats) = categoriesWithSomeAnn A cats :=
  List.filter_eq_self.mpr (fun _ h => (List.mem_filter.mp h).2)

/-- Helper: running the correction steps on their own output changes
nothing: the surviving records still reference known categories and
images, and the pruned image/category lists are stable. -/
lemma steps_stable (cats anns imgs A I C : List Dict) (ci cc : Bool)
    (hA : A = annsWithKnownImage imgs (annsWithKnownCategory cats anns))
    (hI : I = if ci then imagesWithSomeAnn A imgs else imgs)
    (hC : C = if cc then categoriesWithSomeAnn A cats else cats) :
    annsWithKnownCategory C A = A ∧
    annsWithKnownImage I A = A ∧
    imagesWithSomeAnn A I = (if ci then I else imagesWithSomeAnn A imgs) ∧
    categoriesWithSomeAnn A C = (if cc then C else categoriesWithSomeAnn A cats) := by
  have hmemA : ∀ a ∈ A,
      Dict.find a kCategoryId ∈ cats.map (fun cat => Dict.find cat kId) ∧
      Dict.find a kImageId ∈ imgs.map (fun img => Dict.find img kId) := by
    intro a ha
    rw [hA] at ha
    obtain ⟨haC, h2⟩ := mem_annsWithKnownImage.mp ha
    exact ⟨(mem_annsWithKnownCategory.mp haC).2, h2⟩
  refine ⟨?_, ?_, ?_, ?_⟩
  · show List.filter _ A = A
    apply List.filter_eq_self.mpr
    intro a ha
    apply decide_eq_true
    obtain ⟨h1, -⟩ := hmemA a ha
    subst hC
    cases cc
    · simpa using h1
    · simp only [if_true]
      obtain ⟨cat, hcat, heq⟩ := List.mem_map.mp h1
      exact List.mem_map.mpr
        ⟨cat, mem_categoriesWithSomeAnn.mpr ⟨hcat, List.mem_map.mpr ⟨a, ha, heq.symm⟩⟩, heq⟩
  · show List.filter _ A = A
    apply List.filter_eq_self.mpr
    intro a ha
    apply decide_eq_true
    obtain ⟨-, h2⟩ := hmemA a ha
    subst hI
    cases ci
    · simpa using h2
    · simp only [if_true]
      obtain ⟨img, himg, heq⟩ := List.mem_map.mp h2
      exact List.mem_map.mpr
        ⟨img, mem_imagesWithSomeAnn.mpr ⟨himg, List.mem_map.mpr ⟨a, ha, heq.symm⟩⟩, heq⟩
  · subst hI
    cases ci
    · simp
    · simpa using imagesSome_idem
  · subst hC
    cases cc
    · simp
    · simpa using categoriesSome_idem

/-- Helper: `correct_steps` restated with named components, for
rewriting. -/
lemma correct_components (m : CocoEditor) (ci cc : Bool) (hm : m.filter_applied = true)
    (A I C : List Dict)
    (hA : A = annsWithKnownImage m.images (annsWithKnownCategory m.categories m.annotations))
    (hI : I = if ci then imagesWithSomeAnn A m.images else m.images)
    (hC : C = if cc then categoriesWithSomeAnn A m.categories else m.categories) :
    m.correct ci cc =
      ({ m with annotations := A, images := I, categories := C },
       { info := m.info, licenses := m.licenses, images := I,
         categories := C, annotations := A }) := by
  subst hA hI hC
  exact correct_steps m ci cc hm

/-- Helper: idempotence of `correct` for an editor whose
`filter_applied` flag is set. -/
lemma c10_aux (m : CocoEditor) (ci cc : Bool) (hm : m.filter_applied = true) :
    ((m.correct ci cc).1.correct ci cc).1.images = (m.correct ci cc).1.images ∧
    ((m.correct ci cc).1.correct ci cc).1.annotations = (m.correct ci cc).1.annotations ∧
    ((m.correct ci cc).1.correct ci cc).1.categories = (m.correct ci cc).1.categories ∧
    ((m.correct ci cc).1.correct ci cc).1.licenses = (m.correct ci cc).1.licenses ∧
    ((m.correct ci cc).1.correct ci cc).1.info = (m.correct ci cc).1.info ∧
    ((m.correct ci cc).1.correct ci cc).2 = (m.correct ci cc).2 := by
  set A := annsWithKnownImage m.images (annsWithKnownCategory m.categories m.annotations) with hA
  set I := if ci then imagesWithSomeAnn A m.images else m.images with hI
  set C := if cc then categoriesWithSomeAnn A m.categories else m.categories with hC
  have e1eq := correct_components m ci cc hm A I C hA hI hC
  obtain ⟨hs1, hs2, hs3, hs4⟩ := steps_stable m.categories m.annotations m.images A I C ci cc hA hI hC
  have hA2 : A = annsWithKnownImage I (annsWithKnownCategory C A) := by rw [hs1, hs2]
  have hI2 : I = if ci then imagesWithSomeAnn A I else I := by
    cases ci
    · simp
    · simp only [if_true] at hs3 ⊢
      exact hs3.symm
  have hC2 : C = if cc then categoriesWithSomeAnn A C else C := by
    cases cc
    · simp
    · simp only [if_true] at hs4 ⊢
      exact hs4.symm
  have e2eq := correct_components
      ({ m with annotations := A, images := I, categories := C }) ci cc hm A I C hA2 hI2 hC2
  rw [e1eq]
  dsimp only
  rw [e2eq]
  exact ⟨rfl, rfl, rfl, rfl, rfl, rfl⟩

/-- C10: `correct` is idempotent for fixed flags: running it a second
time immediately after a first run with the same flag values leaves
every collection, the metadata and the returned aggregate exactly as
after the first run. -/
theorem c10_correct_idempotent (e : CocoEditor) (ci cc : Bool) :
    ((e.correct ci cc).1.correct ci cc).1.images = (e.correct ci cc).1.images ∧
    ((e.correct ci cc).1.correct ci cc).1.annotations = (e.correct ci cc).1.annotations ∧
    ((e.correct ci cc).1.correct ci cc).1.categories = (e.correct ci cc).1.categories ∧
    ((e.correct ci cc).1.correct ci cc).1.licenses = (e.correct ci cc).1.licenses ∧
    ((e.correct ci cc).1.correct ci cc).1.info = (e.correct ci cc).1.info ∧
    ((e.correct ci cc).1.correct ci cc).2 = (e.correct ci cc).2 := by
  rw [correct_run_filter e ci cc]
  exact c10_aux _ ci cc (pre_filter_flag e)

/-- The editor on which `apply_filter` ran (with no filters) and an
image-name inclusion filter for `image0.jpg` was registered
afterwards: `filter_applied` is still true. -/
def eC6 : CocoEditor := (editor3.apply_filter).add_file_name_filter (some [fn0]) none

/-- C6 counterexample: on `eC6`, `apply_filter` has not run since the
most recent filter-registration change (one inclusion filter is
registered after the last run), yet `correct` does not re-filter: the
images stay `[image0, image1, image2]`, while running `apply_filter`
would give `[image0]`. -/
theorem c6_counterexample :
    eC6.filter_applied = true ∧
    eC6.image_filters.include_filters.length = 1 ∧
    (eC6.correct false false).1.images = [img0rec, img1rec, img2rec] ∧
    (eC6.apply_filter).images = [img0rec] := by
  exact ⟨rfl, rfl, rfl, rfl⟩


/-- Helper: the editor with all four filter sets replaced. -/
def withFilters (e : CocoEditor) (F1 F2 F3 F4 : Filters) : CocoEditor :=
  { e with image_filters := F1, category_filters := F2,
           annotation_filters := F3, licenses_filters := F4 }

/-- C6 amended: `correct` re-filters exactly when `filter_applied` is
false, that is, when `apply_filter` has not run since the most recent
load or reset; registering a filter mutates neither the collections
nor `filter_applied`, and when `filter_applied` is already true the
registered filter sets have no influence on `correct`'s result. -/
theorem c6_amended_refilter_only_on_flag (e : CocoEditor) (ci cc : Bool) :
    (∀ inc exc,
      ((e.add_file_name_filter inc exc).filter_applied = e.filter_applied ∧
       (e.add_file_name_filter inc exc).images = e.images ∧
       (e.add_file_name_filter inc exc).annotations = e.annotations ∧
       (e.add_file_name_filter inc exc).categories = e.categories ∧
       (e.add_file_name_filter inc exc).licenses = e.licenses ∧
       (e.add_file_name_filter inc exc).info = e.info)) ∧
    (e.filter_applied = false → e.correct ci cc = (e.apply_filter).correct ci cc) ∧
    (e.filter_applied = true → ∀ F1 F2 F3 F4,
      (((withFilters e F1 F2 F3 F4).correct ci cc).2 = (e.correct ci cc).2 ∧
       ((withFilters e F1 F2 F3 F4).correct ci cc).1.images = (e.correct ci cc).1.images ∧
       ((withFilters e F1 F2 F3 F4).correct ci cc).1.annotations
         = (e.correct ci cc).1.annotations ∧
       ((withFilters e F1 F2 F3 F4).correct ci cc).1.categories
         = (e.correct ci cc).1.categories ∧
       ((withFilters e F1 F2 F3 F4).correct ci cc).1.licenses
         = (e.correct ci cc).1.licenses)) := by
  refine ⟨?_, ?_, ?_⟩
  · intro inc exc
    cases inc <;> cases exc <;> exact ⟨rfl, rfl, rfl, rfl, rfl, rfl⟩
  · intro h
    rw [correct_run_filter e ci cc, h]
    rfl
  · intro h F1 F2 F3 F4
    have h1 := correct_components (withFilters e F1 F2 F3 F4) ci cc h
      (annsWithKnownImage e.images (annsWithKnownCategory e.categories e.annotations))
      (if ci then imagesWithSomeAnn
        (annsWithKnownImage e.images (annsWithKnownCategory e.categories e.annotations)) e.images
       else e.images)
      (if cc then categoriesWithSomeAnn
        (annsWithKnownImage e.images (annsWithKnownCategory e.categories e.annotations)) e.categories
       else e.categories)
      rfl rfl rfl
    have h2 := correct_components e ci cc h
      (annsWithKnownImage e.images (annsWithKnownCategory e.categories e.annotations))
      (if ci then imagesWithSomeAnn
        (annsWithKnownImage e.images (annsWithKnownCategory e.categories e.annotations)) e.images
       else e.images)
      (if cc then categoriesWithSomeAnn
        (annsWithKnownImage e.images (annsWithKnownCategory e.categories e.annotations)) e.categories
       else e.categories)
      rfl rfl rfl
    rw [h1, h2]
    exact ⟨rfl, rfl, rfl, rfl, rfl⟩

/-- Witness for `c6_amended_refilter_only_on_flag`: the freshly loaded
concrete editor has `filter_applied = false`, and its `correct` call
equals `correct` after an explicit `apply_filter`. -/
theorem c6_amended_witness :
    editor3.filter_applied = false ∧
    editor3.correct true false = (editor3.apply_filter).correct true false :=
  ⟨rfl, (c6_amended_refilter_only_on_flag editor3 true false).2.1 rfl⟩

/-- C7: `validate_keys` succeeds exactly when every record carries all
required fields; otherwise it fails with an error naming some
offending record's missing fields together with that record's id (or
`Unknown` when the record has no id field). -/
theorem c7_validation_missing_fields (data : List Dict) (required_keys : List String)
    (target : String) :
    (validate_keys data required_keys target = Except.ok () ↔
      ∀ d ∈ data, missingKeys required_keys d = []) ∧
    (∀ err, validate_keys data required_keys target = Except.error err →
      ∃ d ∈ data, missingKeys required_keys d ≠ [] ∧
        err.missing = missingKeys required_keys d ∧
        err.target = target ∧
        err.recordId = (Dict.find d kId).getD (Value.vStr sUnknown)) := by
  induction data with
  | nil =>
    constructor
    · simp [validate_keys]
    · intro err herr
      simp [validate_keys] at herr
  | cons d rest ih =>
    by_cases hmiss : (missingKeys required_keys d).isEmpty
    · have hemp : missingKeys required_keys d = [] := by
        simpa [List.isEmpty_iff] using hmiss
      have hstep : validate_keys (d :: rest) required_keys target
          = validate_keys rest required_keys target := by
        simp [validate_keys, hmiss]
      constructor
      · rw [hstep, ih.1]
        constructor
        · intro h d' hd'
          rcases List.mem_cons.mp hd' with h' | h'
          · rw [h']
            exact hemp
          · exact h d' h'
        · intro h d' hd'
          exact h d' (List.mem_cons_of_mem d hd')
      · intro err herr
        rw [hstep] at herr
        obtain ⟨d', hd', hprop⟩ := ih.2 err herr
        exact ⟨d', List.mem_cons_of_mem d hd', hprop⟩
    · have hne : missingKeys required_keys d ≠ [] := by
        simpa [List.isEmpty_iff] using hmiss
      have hstep : validate_keys (d :: rest) required_keys target
          = Except.error
              { missing := missingKeys required_keys d
                target := target
                recordId := (Dict.find d kId).getD (Value.vStr sUnknown) } := by
        simp [validate_keys, hmiss]
      constructor
      · rw [hstep]
        constructor
        · intro h
          exact absurd h (by simp)
        · intro h
          exact absurd (h d (by simp)) hne
      · intro err herr
        rw [hstep] at herr
        have herr2 : err
            = { missing := missingKeys required_keys d
                target := target
                recordId := (Dict.find d kId).getD (Value.vStr sUnknown) } := by
          cases herr
          rfl
        refine ⟨d, by simp, hne, ?_, ?_, ?_⟩ <;> rw [herr2]

/-- The concrete record list of the validation witness: the second
record has only an `id` field, so `name` and `supercategory` are
missing for the category collection. -/
def recW : Dict := [(kId, Value.vInt 2)]

def dataW : List Dict := [cat0rec, recW]

def errW : KeyErrorInfo :=
  { missing := [kName, kSupercategory], target := tgtCategory, recordId := Value.vInt 2 }

/-- Witness for `c7_validation_missing_fields` at the concrete failing
record list. -/
theorem c7_validation_witness :
    ∃ d ∈ dataW, missingKeys categoryKeys d ≠ [] ∧
      errW.missing = missingKeys categoryKeys d ∧
      errW.target = tgtCategory ∧
      errW.recordId = (Dict.find d kId).getD (Value.vStr sUnknown) :=
  (c7_validation_missing_fields dataW categoryKeys tgtCategory).2 errW rfl

/-- C9: `reset` behaves exactly like constructing a fresh editor from
the same source: for a dataset passing validation it replaces all five
data members by the source's (with the optional members defaulted),
clears `filter_applied`, and leaves all four filter sets empty,
whatever the editor's previous state. -/
theorem c9_reset_equals_fresh_construction (e : CocoEditor) (ds : Dataset)
    (e0 : CocoEditor) (h : fromDataset ds = Except.ok e0) :
    e.reset ds = fromDataset ds ∧
    e.reset ds = Except.ok e0 ∧
    e0.images = ds.images ∧ e0.annotations = ds.annotations ∧
    e0.categories = ds.categories ∧ e0.licenses = ds.licensesOpt.getD [] ∧
    e0.info = ds.infoOpt.getD [] ∧ e0.filter_applied = false ∧
    e0.image_filters.include_filters = [] ∧ e0.image_filters.exclude_filters = [] ∧
    e0.category_filters.include_filters = [] ∧ e0.category_filters.exclude_filters = [] ∧
    e0.annotation_filters.include_filters = [] ∧ e0.annotation_filters.exclude_filters = [] ∧
    e0.licenses_filters.include_filters = [] ∧ e0.licenses_filters.exclude_filters = [] := by
  have hre : e.reset ds = fromDataset ds := rfl
  refine ⟨hre, by rw [hre, h], ?_⟩
  unfold fromDataset at h
  split at h
  · exact Except.noConfusion h
  · split at h
    · exact Except.noConfusion h
    · split at h
      · exact Except.noConfusion h
      · injection h with h2
        rw [← h2]
        exact ⟨rfl, rfl, rfl, rfl, rfl, rfl, rfl, rfl, rfl, rfl, rfl, rfl, rfl, rfl⟩

/-- Witness for `c9_reset_equals_fresh_construction` at the concrete
dataset: the concrete source validates to `editor3`, and `reset` from
any state (here `editor3` itself) reproduces it. -/
theorem c9_reset_witness :
    fromDataset ds3 = Except.ok editor3 ∧
    (eC1.apply_filter).reset ds3 = Except.ok editor3 :=
  ⟨rfl, (c9_reset_equals_fresh_construction (eC1.apply_filter) ds3 editor3 rfl).2.1⟩

/-- A decision function that raises on every record. -/
def raisingPred : OptPred := fun _ => none

/-- A never-raising decision function. -/
def liftPred (p : Dict → Bool) : OptPred := fun d => some (p d)

/-- Concrete editor for the exception scenario: the image filter set
keeps only `image0.jpg`; the category filter set holds a decision
function that raises. -/
def eC3 : CocoEditorE :=
  { images := [img0rec, img1rec]
    annotations := [annArec]
    categories := [cat0rec]
    licenses := [lic1rec]
    info := infoRec
    image_filters := { include_filters := [liftPred (imageNameMatch [fn0])], exclude_filters := [] }
    category_filters := { include_filters := [raisingPred], exclude_filters := [] }
    annotation_filters := { include_filters := [], exclude_filters := [] }
    licenses_filters := { include_filters := [], exclude_filters := [] }
    filter_applied := false }

/-- C3 counterexample: on `eC3`, a category decision function raises
during `apply_filter`, the call aborts — and the images collection has
already been replaced by its filtered value `[image0]`, so the editor
is NOT left exactly as it was before the call. -/
theorem c3_counterexample_partial_replacement :
    eC3.apply_filterE = Except.error { eC3 with images := [img0rec] } ∧
    eC3.images = [img0rec, img1rec] ∧
    ([img0rec] : List Dict) ≠ [img0rec, img1rec] := by
  exact ⟨rfl, rfl, by decide⟩

/-- C3 amended: an exception in a decision function propagates out of
`apply_filter` without setting `filter_applied` and without touching
`info` or the registered filter sets, but the collections are not
rolled back: every collection processed before the raising one keeps
its freshly filtered value, the raising collection keeps the value of
its already-committed stages, and the collections after it keep their
pre-call values. -/
theorem c3_amended_exception_keeps_partial_state (e e1 : CocoEditorE)
    (h : e.apply_filterE = Except.error e1) :
    e1.filter_applied = e.filter_applied ∧
    e1.info = e.info ∧
    e1.image_filters = e.image_filters ∧
    e1.category_filters = e.category_filters ∧
    e1.annotation_filters = e.annotation_filters ∧
    e1.licenses_filters = e.licenses_filters ∧
    ((applyCollectionE e.image_filters e.images = Except.error e1.images ∧
      e1.categories = e.categories ∧ e1.annotations = e.annotations ∧
      e1.licenses = e.licenses) ∨
     (applyCollectionE e.image_filters e.images = Except.ok e1.images ∧
      applyCollectionE e.category_filters e.categories = Except.error e1.categories ∧
      e1.annotations = e.annotations ∧ e1.licenses = e.licenses) ∨
     (applyCollectionE e.image_filters e.images = Except.ok e1.images ∧
      applyCollectionE e.category_filters e.categories = Except.ok e1.categories ∧
      applyCollectionE e.annotation_filters e.annotations = Except.error e1.annotations ∧
      e1.licenses = e.licenses) ∨
     (applyCollectionE e.image_filters e.images = Except.ok e1.images ∧
      applyCollectionE e.category_filters e.categories = Except.ok e1.categories ∧
      applyCollectionE e.annotation_filters e.annotations = Except.ok e1.annotations ∧
      applyCollectionE e.licenses_filters e.licenses = Except.error e1.licenses)) := by
  unfold CocoEditorE.apply_filterE at h
  cases h1 : applyCollectionE e.image_filters e.images with
  | error imgs1 =>
    rw [h1] at h
    simp only at h
    injection h with h2
    rw [← h2]
    exact ⟨rfl, rfl, rfl, rfl, rfl, rfl, Or.inl ⟨rfl, rfl, rfl, rfl⟩⟩
  | ok imgs1 =>
    rw [h1] at h
    simp only at h
    cases h2 : applyCollectionE e.category_filters e.categories with
    | error cats1 =>
      rw [h2] at h
      simp only at h
      injection h with h3
      rw [← h3]
      exact ⟨rfl, rfl, rfl, rfl, rfl, rfl, Or.inr (Or.inl ⟨rfl, rfl, rfl, rfl⟩)⟩
    | ok cats1 =>
      rw [h2] at h
      simp only at h
      cases h3 : applyCollectionE e.annotation_filters e.annotations with
      | error anns1 =>
        rw [h3] at h
        simp only at h
        injection h with h4
        rw [← h4]
        exact ⟨rfl, rfl, rfl, rfl, rfl, rfl, Or.inr (Or.inr (Or.inl ⟨rfl, rfl, rfl, rfl⟩))⟩
      | ok anns1 =>
        rw [h3] at h
        simp only at h
        cases h4 : applyCollectionE e.licenses_filters e.licenses with
        | error lics1 =>
          rw [h4] at h
          simp only at h
          injection h with h5
          rw [← h5]
          exact ⟨rfl, rfl, rfl, rfl, rfl, rfl, Or.inr (Or.inr (Or.inr ⟨rfl, rfl, rfl, rfl⟩))⟩
        | ok lics1 =>
          rw [h4] at h
          simp only at h
          exact Except.noConfusion h

/-- Witness for `c3_amended_exception_keeps_partial_state` at the
concrete raising editor. -/
theorem c3_amended_witness :
    ({ eC3 with images := [img0rec] } : CocoEditorE).filter_applied = eC3.filter_applied :=
  (c3_amended_exception_keeps_partial_state eC3 ({ eC3 with images := [img0rec] }) rfl).1

/-- Concrete exclusion-only filter set: one exclusion filter matching
`image1.jpg`. -/
def fsW2 : Filters := { include_filters := [], exclude_filters := [imageNameMatch [fn1]] }

/-- Concrete inclusion-only filter set: one inclusion filter matching
`image0.jpg` or `image1.jpg`. -/
def fsW8 : Filters := { include_filters := [imageNameMatch [fn0, fn1]], exclude_filters := [] }

/-- The concrete image list used by the filter-set witnesses. -/
def dsW : List Dict := [img0rec, img1rec, img2rec]

/-- Witness for `c2_exclusion_only_drops_iff_all_match` at the
concrete exclusion-only filter set. -/
theorem c2_exclusion_witness :
    fsW2.include_filters = [] ∧
    applyCollection fsW2 dsW =
      dsW.filter (fun d => fsW2.exclude_filters.any (fun f => !(f d))) :=
  ⟨rfl, (c2_exclusion_only_drops_iff_all_match fsW2 dsW rfl (List.cons_ne_nil _ _)).1⟩

/-- Witness for `c8_inclusion_only_keeps_any_match` at the concrete
inclusion-only filter set. -/
theorem c8_inclusion_witness :
    fsW8.exclude_filters = [] ∧
    applyCollection fsW8 dsW =
      (if fsW8.include_filters.isEmpty then dsW
       else dsW.filter (fun d => fsW8.include_filters.any (fun f => f d))) :=
  ⟨rfl, (c8_inclusion_only_keeps_any_match fsW8 dsW rfl).1⟩
